import Mathlib

/-!
Verification of the `session` Go package (a wrapper around gorilla/sessions
for cookie-backed user sessions).

Strings are modelled as lists of Unicode scalar values (`GoStr`); Go's
`len` on a string counts UTF-8 bytes, which we compute per character.
Durations (`time.Duration`) are 64-bit nanosecond counts, modelled as `Int`.
Panics (nil-pointer dereference, failed type assertion) are modelled by
`Option.none` results.
-/

namespace SessionPkg

/-- A Go string, as its sequence of runes. -/
abbrev GoStr := List Char

/-- UTF-8 byte width of one rune, as Go's len() counts it. -/
def runeLen (c : Char) : Nat :=
  if c.toNat < 0x80 then 1
  else if c.toNat < 0x800 then 2
  else if c.toNat < 0x10000 then 3
  else 4

/-- Go `len(s)` for a string: total UTF-8 byte length. -/
def goLen (s : GoStr) : Nat := (s.map runeLen).sum

/-- Go `unicode.IsSpace`: the Unicode White_Space property
(0x09-0x0D, 0x20, 0x85, 0xA0, 0x1680, 0x2000-0x200A, 0x2028, 0x2029,
0x202F, 0x205F, 0x3000). -/
def goIsSpace (c : Char) : Bool :=
  (9 ≤ c.toNat && c.toNat ≤ 13) || c.toNat = 32 || c.toNat = 0x85 || c.toNat = 0xA0 ||
  c.toNat = 0x1680 || (0x2000 ≤ c.toNat && c.toNat ≤ 0x200a) ||
  c.toNat = 0x2028 || c.toNat = 0x2029 || c.toNat = 0x202f || c.toNat = 0x205f ||
  c.toNat = 0x3000

/-- Go `strings.TrimSpace`: drop leading and trailing whitespace runes. -/
def goTrim (s : GoStr) : GoStr :=
  ((s.dropWhile goIsSpace).reverse.dropWhile goIsSpace).reverse

/-- The error values declared by the package, plus the two `strconv`
error kinds surfaced through the typed helpers. -/
inductive Err where
  | authKeyWrongSize
  | encryptKeyWrongSize
  | maxAgeTooShort
  | keyNotFound
  | parseBad
  | parseRange
deriving DecidableEq

/-- A value stored in `sessions.Session.Values` (Go type `interface\x7b\x7d`):
either a string or some non-string value (abstracted by a tag). -/
inductive GoVal where
  | str (s : GoStr)
  | nonstr (tag : Nat)
deriving DecidableEq

/-- `sessions.Options`: the transport-level cookie attributes. -/
structure Opts where
  domain : GoStr
  path : GoStr
  maxAge : Int
  httpOnly : Bool
  secure : Bool
  sameSite : Int
deriving DecidableEq

/-- A `sessions.Session`: the decoded key-value mapping, the IsNew flag and
the per-session cookie options. -/
structure Session where
  values : List (GoVal × GoVal)
  isNew : Bool
  opts : Opts
deriving DecidableEq

/-- The state of the request's named session cookie: absent, a validly
sealed mapping, or a value that fails codec verification (tampered,
wrong keys or expired). -/
inductive Cookie where
  | absent
  | sealed (v : List (GoVal × GoVal))
  | tampered
deriving DecidableEq

/-- `sessions.CookieStore`: key pair plus the store-level options set by Init. -/
structure StoreData where
  authKey : GoStr
  encryptKey : GoStr
  options : Opts
deriving DecidableEq

/-- One request/response exchange: the incoming named cookie, gorilla's
per-request session registry, and the response's Set-Cookie slot. -/
structure ReqRes where
  cookie : Cookie
  reg : Option Session
  setCookie : Option (List (GoVal × GoVal) × Opts)
deriving DecidableEq

/-- The package `Config` struct. `store` is nil (`none`) until `Init`
succeeds. -/
structure Config where
  Domain : GoStr
  Path : GoStr
  MaxAge : Int
  HTTPOnly : Bool
  Secure : Bool
  SameSite : Int
  CookieName : GoStr
  AuthKey : GoStr
  EncryptKey : GoStr
  store : Option StoreData
deriving DecidableEq

/-- 1 second in `time.Duration` nanoseconds. -/
def oneSecond : Int := 1000000000

/-- `NewConfig()`: defaults (domain ".", path "/", max-age 1h, http-only,
not secure, SameSite strict = 3, cookie name "session", no keys, nil store). -/
def NewConfig : Config :=
  ⟨['.'], ['/'], 3600 * oneSecond, true, false, 3, "session".toList, [], [], none⟩

/-- First statement of `Config.validate`: blank domain defaulted to ".". -/
def normDomain (c : Config) : Config :=
  if goTrim c.Domain = [] then {c with Domain := ['.']} else c

/-- Second statement of `Config.validate`: blank path defaulted to "/". -/
def normPath (c : Config) : Config :=
  if goTrim c.Path = [] then {c with Path := ['/']} else c

/-- `Config.validate`'s SameSite clamp: out-of-range values (outside 1..4)
fall back to strict (3). -/
def normSameSite (c : Config) : Config :=
  if c.SameSite < 1 ∨ 4 < c.SameSite then {c with SameSite := 3} else c

/-- `Config.validate`'s AuthKey switch: len 0 generates a key, len 64 is
accepted, anything else errors. The generated random key is `genAuth`. -/
def authSwitch (c : Config) (genAuth : GoStr) : Config × Option Err :=
  if goLen c.AuthKey = 0 then ({c with AuthKey := genAuth}, none)
  else if goLen c.AuthKey = 64 then (c, none)
  else (c, some .authKeyWrongSize)

/-- `Config.validate`'s EncryptKey switch: len 0 generates a key, len 32 is
accepted, anything else errors. The generated random key is `genEnc`. -/
def encSwitch (c : Config) (genEnc : GoStr) : Config × Option Err :=
  if goLen c.EncryptKey = 0 then ({c with EncryptKey := genEnc}, none)
  else if goLen c.EncryptKey = 32 then (c, none)
  else (c, some .encryptKeyWrongSize)

/-- `Config.validate`, with the two `securecookie.GenerateRandomKey` results
passed in as `genAuth`/`genEnc`. The receiver is a pointer in Go, so the
(possibly partially mutated) config is returned alongside the error; an
error return leaves the mutations already made in place. -/
def validate (c0 : Config) (genAuth genEnc : GoStr) : Config × Option Err :=
  let c2 := normPath (normDomain c0)
  if c2.MaxAge < oneSecond then (c2, some .maxAgeTooShort)
  else
    match authSwitch (normSameSite c2) genAuth with
    | (c4, some e) => (c4, some e)
    | (c4, none) => encSwitch c4 genEnc

/-- `Config.getOptions`: derive cookie options from the current fields.
`int(c.MaxAge.Seconds())` truncates toward zero, which is `Int.tdiv`. -/
def getOptions (c : Config) : Opts :=
  ⟨c.Domain, c.Path, Int.tdiv c.MaxAge oneSecond, c.HTTPOnly, c.Secure, c.SameSite⟩

/-- `Config.Init`: validate, then build the cookie store from the two keys
and set its options. On a validation error the store field is untouched. -/
def InitOp (c : Config) (genAuth genEnc : GoStr) : Config × Option Err :=
  match validate c genAuth genEnc with
  | (c', some e) => (c', some e)
  | (c', none) => ({c' with store := some ⟨c'.AuthKey, c'.EncryptKey, getOptions c'⟩}, none)

/-- Modelled from the spec: gorilla's `CookieStore` materializes a new
session from the request's named cookie; if the cookie is absent or fails
codec verification it yields a new empty session with IsNew = true
(spec sections 4.2 and 7); a validly sealed cookie yields its mapping with
IsNew = false. The session's options start as a copy of the store's. -/
def newSessionFromCookie (sd : StoreData) : Cookie → Session
  | .absent => ⟨[], true, sd.options⟩
  | .sealed v => ⟨v, false, sd.options⟩
  | .tampered => ⟨[], true, sd.options⟩

/-- Modelled from the spec: gorilla's `store.Get(r, name)` returns the
request-registry-cached session if one exists, else decodes the cookie,
caches and returns the new session; verification failures are masked as a
fresh session rather than surfaced (spec section 4.2). -/
def storeGet (sd : StoreData) (st : ReqRes) : (Except Err Session) × ReqRes :=
  match st.reg with
  | some s => (.ok s, st)
  | none =>
    let s := newSessionFromCookie sd st.cookie
    (.ok s, {st with reg := some s})

/-- Modelled from the spec: `session.Save(r, w)` seals the current mapping
with the session's options into the response's Set-Cookie header; sealing
is treated as always succeeding (size overflow is a collaborator-level
failure outside this core, spec section 6). -/
def sessionSave (s : Session) (st : ReqRes) : Option Err × ReqRes :=
  (none, {st with setCookie := some (s.values, s.opts)})

/-- `Config.GetSession`: delegate to the store. A nil store (Init never
succeeded) is a nil-pointer dereference, i.e. a panic (`none`). -/
def GetSessionOp (c : Config) (st : ReqRes) : Option ((Except Err Session) × ReqRes) :=
  match c.store with
  | none => none
  | some sd => some (storeGet sd st)

/-- Go map update `m[k] = v` on an association list: replace the binding
if the key is present, else append it. -/
def mapSet {α β : Type} [DecidableEq α] : List (α × β) → α → β → List (α × β)
  | [], k, v => [(k, v)]
  | (k', v') :: rest, k, v =>
    if k' = k then (k, v) :: rest else (k', v') :: mapSet rest k v

/-- Go map lookup `m[k]` on an association list. -/
def mapGet {α β : Type} [DecidableEq α] : List (α × β) → α → Option β
  | [], _ => none
  | (k', v) :: rest, k => if k' = k then some v else mapGet rest k

/-- `Config.AddValue`: get the session, set the entry (mutating the
registered session through the shared pointer), save. -/
def AddValue (c : Config) (key value : GoStr) (st : ReqRes) :
    Option (Option Err × ReqRes) :=
  match GetSessionOp c st with
  | none => none
  | some (.error e, st') => some (some e, st')
  | some (.ok s, st') =>
    let s' : Session := {s with values := mapSet s.values (.str key) (.str value)}
    some (sessionSave s' {st' with reg := some s'})

/-- `Config.GetValue`: get the session and type-assert the stored value to
string with the comma-ok form; a missing key or non-string value is
`ErrKeyNotFound`. -/
def GetValue (c : Config) (key : GoStr) (st : ReqRes) :
    Option ((Except Err GoStr) × ReqRes) :=
  match GetSessionOp c st with
  | none => none
  | some (.error e, st') => some (.error e, st')
  | some (.ok s, st') =>
    match mapGet s.values (GoVal.str key) with
    | some (.str v) => some (.ok v, st')
    | _ => some (.error .keyNotFound, st')

/-- The loop body of `Config.GetAllValues`: `k.(string)` / `v.(string)`
without the comma-ok form panic (`none`) on a non-string entry; string
entries are inserted into the result map. -/
def collectStrings : List (GoVal × GoVal) → List (GoStr × GoStr) →
    Option (List (GoStr × GoStr))
  | [], kv => some kv
  | (k, v) :: rest, kv =>
    match k, v with
    | .str ks, .str vs => collectStrings rest (mapSet kv ks vs)
    | _, _ => none

/-- `Config.GetAllValues`: get the session and convert every entry to a
string pair; a non-string key or value is a failed type assertion = panic. -/
def GetAllValues (c : Config) (st : ReqRes) :
    Option ((Except Err (List (GoStr × GoStr))) × ReqRes) :=
  match GetSessionOp c st with
  | none => none
  | some (.error e, st') => some (.error e, st')
  | some (.ok s, st') =>
    match collectStrings s.values [] with
    | none => none
    | some kv => some (.ok kv, st')

/-- `Config.Destroy`: get the session, re-derive options, override MaxAge
to -1 (expire immediately), save. -/
def Destroy (c : Config) (st : ReqRes) : Option (Option Err × ReqRes) :=
  match GetSessionOp c st with
  | none => none
  | some (.error e, st') => some (some e, st')
  | some (.ok s, st') =>
    let s' : Session := {s with opts := {getOptions c with maxAge := -1}}
    some (sessionSave s' {st' with reg := some s'})

/-- `Config.Extend`: get the session, re-derive options, save. -/
def Extend (c : Config) (st : ReqRes) : Option (Option Err × ReqRes) :=
  match GetSessionOp c st with
  | none => none
  | some (.error e, st') => some (some e, st')
  | some (.ok s, st') =>
    let s' : Session := {s with opts := getOptions c}
    some (sessionSave s' {st' with reg := some s'})

/-- The common step shared by Destroy and Extend: get the session, install
the given options on it, save. -/
def setOptsAndSave (c : Config) (o : Opts) (st : ReqRes) :
    Option (Option Err × ReqRes) :=
  match GetSessionOp c st with
  | none => none
  | some (.error e, st') => some (some e, st')
  | some (.ok s, st') =>
    let s' : Session := {s with opts := o}
    some (sessionSave s' {st' with reg := some s'})

/-- The character for a decimal digit value. -/
def digitCh (n : Nat) : Char := Char.ofNat (48 + n)

/-- Decimal digits of a natural number, least significant first
(empty for 0). -/
def natDigitsRev : Nat → List Char
  | 0 => []
  | n + 1 => digitCh ((n + 1) % 10) :: natDigitsRev ((n + 1) / 10)
decreasing_by exact Nat.div_lt_self (Nat.succ_pos n) (by norm_num)

/-- Go `strconv.FormatUint`-style decimal rendering of a natural number. -/
def formatNat (n : Nat) : GoStr :=
  if n = 0 then ['0'] else (natDigitsRev n).reverse

/-- Go `strconv.FormatInt(v, 10)`. -/
def formatInt (i : Int) : GoStr :=
  if i < 0 then '-' :: formatNat i.natAbs else formatNat i.natAbs

/-- Decimal digit value of a character, if it is one. -/
def chDigit (c : Char) : Option Nat :=
  if 48 ≤ c.toNat ∧ c.toNat ≤ 57 then some (c.toNat - 48) else none

/-- Accumulating decimal scan over characters; fails on a non-digit. -/
def parseDigitsAux : List Char → Nat → Option Nat
  | [], acc => some acc
  | c :: cs, acc =>
    match chDigit c with
    | some d => parseDigitsAux cs (acc * 10 + d)
    | none => none

/-- Decimal scan requiring at least one digit (Go `strconv.ParseUint`
without the bit-size cutoff, which `parseInt64` applies afterwards). -/
def parseDigits (l : List Char) : Option Nat :=
  if l.isEmpty then none else parseDigitsAux l 0

/-- Go `strconv.ParseInt(s, 10, 64)`: optional sign, at least one digit,
int64 range check. Syntax failures and range overflows are the two
`strconv` error kinds. -/
def parseInt64 (s : GoStr) : Except Err Int :=
  match s with
  | [] => .error .parseBad
  | c :: rest =>
    if c = '-' then
      match parseDigits rest with
      | none => .error .parseBad
      | some n => if (2 : Int) ^ 63 < (n : Int) then .error .parseRange else .ok (-(n : Int))
    else if c = '+' then
      match parseDigits rest with
      | none => .error .parseBad
      | some n => if (2 : Int) ^ 63 - 1 < (n : Int) then .error .parseRange else .ok n
    else
      match parseDigits s with
      | none => .error .parseBad
      | some n => if (2 : Int) ^ 63 - 1 < (n : Int) then .error .parseRange else .ok n

/-- The reserved session key used by the user-ID helpers. -/
def keyUserID : GoStr := "user_id".toList

/-- `Config.AddUserID`: store the int64 as a base-10 decimal string under
the user-ID key. -/
def AddUserID (c : Config) (n : Int) (st : ReqRes) : Option (Option Err × ReqRes) :=
  AddValue c keyUserID (formatInt n) st

/-- `Config.GetUserID`: read the user-ID key and parse it as a base-10
int64, propagating either error. -/
def GetUserID (c : Config) (st : ReqRes) : Option ((Except Err Int) × ReqRes) :=
  match GetValue c keyUserID st with
  | none => none
  | some (.error e, st') => some (.error e, st')
  | some (.ok vs, st') =>
    match parseInt64 vs with
    | .error e => some (.error e, st')
    | .ok n => some (.ok n, st')

/-- A configuration on which validation has nothing left to do: non-blank
domain and path, max-age at least one second, in-range SameSite, keys of
the exact required byte lengths. -/
def validConfig (c : Config) : Prop :=
  goTrim c.Domain ≠ [] ∧ goTrim c.Path ≠ [] ∧ ¬c.MaxAge < oneSecond ∧
  1 ≤ c.SameSite ∧ c.SameSite ≤ 4 ∧ goLen c.AuthKey = 64 ∧ goLen c.EncryptKey = 32

/-- A 64-byte ASCII auth key for concrete instances. -/
def aKey64 : GoStr := List.replicate 64 'a'

/-- A 32-byte ASCII encrypt key for concrete instances. -/
def eKey32 : GoStr := List.replicate 32 'e'

/-- Concrete cookie options matching `cfgW`. -/
def optsW : Opts := ⟨['.'], ['/'], 3600, true, false, 3⟩

/-- Concrete store data for `cfgW`. -/
def sdW : StoreData := ⟨aKey64, eKey32, optsW⟩

/-- A concrete initialized configuration. -/
def cfgW : Config :=
  ⟨['.'], ['/'], 3600 * oneSecond, true, false, 3, "session".toList, aKey64, eKey32, some sdW⟩

/-- A concrete fresh request: no cookie, empty registry, no response cookie. -/
def stW : ReqRes := ⟨Cookie.absent, none, none⟩

/-- The session `cfgW` materializes on `stW`. -/
def sessW : Session := ⟨[], true, optsW⟩

/-- A concrete key used in witnesses. -/
def kKey : GoStr := ['k']

/-- A concrete value used in witnesses. -/
def vVal : GoStr := ['v']

/-- A concrete non-numeric stored string used in witnesses. -/
def abcStr : GoStr := ['a', 'b', 'c']

/-! ### Helper lemmas -/

lemma goTrim_eq_nil_iff (s : GoStr) : goTrim s = [] ↔ s.all goIsSpace = true := by
  unfold goTrim
  rw [List.reverse_eq_nil_iff, List.dropWhile_eq_nil_iff, List.all_eq_true]
  constructor
  · intro h c hc
    rcases (List.takeWhile_append_dropWhile (p := goIsSpace) (l := s)) ▸ hc with hc'
    rcases List.mem_append.mp ((List.takeWhile_append_dropWhile (p := goIsSpace) (l := s)).symm ▸ hc) with h1 | h2
    · exact List.mem_takeWhile_imp h1
    · exact h c (List.mem_reverse.mpr h2)
  · intro h c hc
    exact h c (List.dropWhile_sublist (p := goIsSpace) |>.subset (List.mem_reverse.mp hc))

lemma mapGet_mapSet_self {α β : Type} [DecidableEq α] (m : List (α × β)) (k : α) (v : β) :
    mapGet (mapSet m k v) k = some v := by
  induction m with
  | nil => simp [mapSet, mapGet]
  | cons p rest ih =>
    obtain ⟨k', v'⟩ := p
    by_cases h : k' = k
    · simp [mapSet, mapGet, h]
    · simp [mapSet, mapGet, h, ih]

lemma normDomain_eq (c : Config) :
    normDomain c = {c with Domain := if goTrim c.Domain = [] then ['.'] else c.Domain} := by
  unfold normDomain; split_ifs <;> rfl

lemma normPath_eq (c : Config) :
    normPath c = {c with Path := if goTrim c.Path = [] then ['/'] else c.Path} := by
  unfold normPath; split_ifs <;> rfl

lemma normSameSite_eq (c : Config) :
    normSameSite c =
      {c with SameSite := if c.SameSite < 1 ∨ 4 < c.SameSite then 3 else c.SameSite} := by
  unfold normSameSite; split_ifs <;> rfl

lemma authSwitch_eq (c : Config) (gA : GoStr) :
    authSwitch c gA =
      ({c with AuthKey := if goLen c.AuthKey = 0 then gA else c.AuthKey},
       if goLen c.AuthKey = 0 ∨ goLen c.AuthKey = 64 then none
       else some .authKeyWrongSize) := by
  unfold authSwitch; split_ifs <;> simp_all

lemma encSwitch_eq (c : Config) (gE : GoStr) :
    encSwitch c gE =
      ({c with EncryptKey := if goLen c.EncryptKey = 0 then gE else c.EncryptKey},
       if goLen c.EncryptKey = 0 ∨ goLen c.EncryptKey = 32 then none
       else some .encryptKeyWrongSize) := by
  unfold encSwitch; split_ifs <;> simp_all

/-- Full characterization of `validate`: the final state of every field and
the returned error, in terms of the input configuration. -/
lemma validate_eq (c : Config) (gA gE : GoStr) :
    validate c gA gE =
      ({c with
          Domain := if goTrim c.Domain = [] then ['.'] else c.Domain,
          Path := if goTrim c.Path = [] then ['/'] else c.Path,
          SameSite := if c.MaxAge < oneSecond then c.SameSite
            else if c.SameSite < 1 ∨ 4 < c.SameSite then 3 else c.SameSite,
          AuthKey := if c.MaxAge < oneSecond then c.AuthKey
            else if goLen c.AuthKey = 0 then gA else c.AuthKey,
          EncryptKey := if c.MaxAge < oneSecond then c.EncryptKey
            else if goLen c.AuthKey = 0 ∨ goLen c.AuthKey = 64 then
              (if goLen c.EncryptKey = 0 then gE else c.EncryptKey)
            else c.EncryptKey},
       if c.MaxAge < oneSecond then some .maxAgeTooShort
       else if goLen c.AuthKey = 0 ∨ goLen c.AuthKey = 64 then
         (if goLen c.EncryptKey = 0 ∨ goLen c.EncryptKey = 32 then none
          else some .encryptKeyWrongSize)
       else some .authKeyWrongSize) := by
  unfold validate
  simp only [normDomain_eq, normPath_eq, normSameSite_eq, authSwitch_eq, encSwitch_eq]
  by_cases hM : c.MaxAge < oneSecond <;>
    by_cases hA0 : goLen c.AuthKey = 0 <;>
      by_cases hA64 : goLen c.AuthKey = 64 <;>
        by_cases hE0 : goLen c.EncryptKey = 0 <;>
          by_cases hE32 : goLen c.EncryptKey = 32 <;>
            simp_all
  all_goals simp only [if_neg (not_lt.mpr hM)]

lemma validate_Domain (c : Config) (gA gE : GoStr) :
    (validate c gA gE).1.Domain = if goTrim c.Domain = [] then ['.'] else c.Domain := by
  rw [validate_eq]

lemma validate_Path (c : Config) (gA gE : GoStr) :
    (validate c gA gE).1.Path = if goTrim c.Path = [] then ['/'] else c.Path := by
  rw [validate_eq]

lemma validate_MaxAge (c : Config) (gA gE : GoStr) :
    (validate c gA gE).1.MaxAge = c.MaxAge := by
  rw [validate_eq]

lemma validate_HTTPOnly (c : Config) (gA gE : GoStr) :
    (validate c gA gE).1.HTTPOnly = c.HTTPOnly := by
  rw [validate_eq]

lemma validate_Secure (c : Config) (gA gE : GoStr) :
    (validate c gA gE).1.Secure = c.Secure := by
  rw [validate_eq]

lemma validate_CookieName (c : Config) (gA gE : GoStr) :
    (validate c gA gE).1.CookieName = c.CookieName := by
  rw [validate_eq]

lemma validate_store (c : Config) (gA gE : GoStr) :
    (validate c gA gE).1.store = c.store := by
  rw [validate_eq]

lemma validate_SameSite (c : Config) (gA gE : GoStr) :
    (validate c gA gE).1.SameSite =
      if c.MaxAge < oneSecond then c.SameSite
      else if c.SameSite < 1 ∨ 4 < c.SameSite then 3 else c.SameSite := by
  rw [validate_eq]

lemma validate_AuthKey (c : Config) (gA gE : GoStr) :
    (validate c gA gE).1.AuthKey =
      if c.MaxAge < oneSecond then c.AuthKey
      else if goLen c.AuthKey = 0 then gA else c.AuthKey := by
  rw [validate_eq]

lemma validate_EncryptKey (c : Config) (gA gE : GoStr) :
    (validate c gA gE).1.EncryptKey =
      if c.MaxAge < oneSecond then c.EncryptKey
      else if goLen c.AuthKey = 0 ∨ goLen c.AuthKey = 64 then
        (if goLen c.EncryptKey = 0 then gE else c.EncryptKey)
      else c.EncryptKey := by
  rw [validate_eq]

lemma validate_err (c : Config) (gA gE : GoStr) :
    (validate c gA gE).2 =
      if c.MaxAge < oneSecond then some .maxAgeTooShort
      else if goLen c.AuthKey = 0 ∨ goLen c.AuthKey = 64 then
        (if goLen c.EncryptKey = 0 ∨ goLen c.EncryptKey = 32 then none
         else some .encryptKeyWrongSize)
      else some .authKeyWrongSize := by
  rw [validate_eq]

lemma validate_of_valid (c : Config) (gA gE : GoStr) (h : validConfig c) :
    validate c gA gE = (c, none) := by
  obtain ⟨hD, hP, hM, hS1, hS4, hA, hE⟩ := h
  rw [validate_eq]
  simp [hD, hP, hM, hA, hE, show ¬(c.SameSite < 1 ∨ 4 < c.SameSite) by omega]

lemma valid_of_validate (c c' : Config) (gA gE : GoStr)
    (hgA : goLen gA = 64) (hgE : goLen gE = 32)
    (h : validate c gA gE = (c', none)) : validConfig c' := by
  rw [validate_eq] at h
  injection h with h1 h2
  by_cases hM : c.MaxAge < oneSecond
  · rw [if_pos hM] at h2; simp at h2
  rw [if_neg hM] at h2
  by_cases hA : goLen c.AuthKey = 0 ∨ goLen c.AuthKey = 64
  swap
  · rw [if_neg hA] at h2; simp at h2
  rw [if_pos hA] at h2
  by_cases hE : goLen c.EncryptKey = 0 ∨ goLen c.EncryptKey = 32
  swap
  · rw [if_neg hE] at h2; simp at h2
  subst h1
  refine ⟨?_, ?_, ?_, ?_, ?_, ?_, ?_⟩
  · show goTrim (if goTrim c.Domain = [] then ['.'] else c.Domain) ≠ []
    split_ifs with hD
    · decide
    · exact hD
  · show goTrim (if goTrim c.Path = [] then ['/'] else c.Path) ≠ []
    split_ifs with hP
    · decide
    · exact hP
  · show ¬(c.MaxAge < oneSecond)
    exact hM
  · show 1 ≤ (if c.MaxAge < oneSecond then c.SameSite
      else if c.SameSite < 1 ∨ 4 < c.SameSite then 3 else c.SameSite)
    rw [if_neg hM]; split_ifs <;> omega
  · show (if c.MaxAge < oneSecond then c.SameSite
      else if c.SameSite < 1 ∨ 4 < c.SameSite then 3 else c.SameSite) ≤ 4
    rw [if_neg hM]; split_ifs <;> omega
  · show goLen (if c.MaxAge < oneSecond then c.AuthKey
      else if goLen c.AuthKey = 0 then gA else c.AuthKey) = 64
    rw [if_neg hM]; split_ifs with h0
    · exact hgA
    · rcases hA with h | h
      · exact absurd h h0
      · exact h
  · show goLen (if c.MaxAge < oneSecond then c.EncryptKey
      else if goLen c.AuthKey = 0 ∨ goLen c.AuthKey = 64 then
        (if goLen c.EncryptKey = 0 then gE else c.EncryptKey)
      else c.EncryptKey) = 32
    rw [if_neg hM, if_pos hA]; split_ifs with h0
    · exact hgE
    · rcases hE with h | h
      · exact absurd h h0
      · exact h

lemma addValue_getValue (c : Config) (sd : StoreData) (k v : GoStr) (st : ReqRes)
    (hs : c.store = some sd) :
    ((AddValue c k v st).bind fun p => (GetValue c k p.2).map fun q => (p.1, q.1)) =
      some (none, .ok v) := by
  cases hreg : st.reg with
  | some s =>
    simp [AddValue, GetValue, GetSessionOp, storeGet, sessionSave, hs, hreg,
      mapGet_mapSet_self]
  | none =>
    simp [AddValue, GetValue, GetSessionOp, storeGet, sessionSave, hs, hreg,
      mapGet_mapSet_self]

lemma mapSet_append_of_not_mem {α β : Type} [DecidableEq α]
    (m : List (α × β)) (k : α) (v : β) (h : ∀ q ∈ m, q.1 ≠ k) :
    mapSet m k v = m ++ [(k, v)] := by
  induction m with
  | nil => simp [mapSet]
  | cons p rest ih =>
    obtain ⟨k', v'⟩ := p
    have hk : k' ≠ k := h (k', v') (by simp)
    simp only [mapSet, if_neg hk, List.cons_append]
    rw [ih fun q hq => h q (by simp [hq])]

/-- The string projection of a stored value (used to state what
GetAllValues returns). -/
def unStr : GoVal → GoStr
  | .str s => s
  | .nonstr _ => []

lemma collectStrings_ok (l : List (GoVal × GoVal)) (acc : List (GoStr × GoStr))
    (hstr : ∀ p ∈ l, ∃ ks vs, p = (GoVal.str ks, GoVal.str vs))
    (hnd : (l.map Prod.fst).Nodup)
    (hdisj : ∀ p ∈ l, ∀ q ∈ acc, p.1 ≠ GoVal.str q.1) :
    collectStrings l acc = some (acc ++ l.map fun p => (unStr p.1, unStr p.2)) := by
  induction l generalizing acc with
  | nil => simp [collectStrings]
  | cons p rest ih =>
    obtain ⟨ks, vs, rfl⟩ := hstr p (by simp)
    simp only [List.map_cons, List.nodup_cons] at hnd
    simp only [collectStrings]
    rw [mapSet_append_of_not_mem acc ks vs
      (fun q hq hqk => hdisj (GoVal.str ks, GoVal.str vs) (by simp) q hq (by rw [hqk]))]
    have h1 : ∀ q ∈ rest, ∃ ks vs, q = (GoVal.str ks, GoVal.str vs) :=
      fun q hq => hstr q (List.mem_cons_of_mem _ hq)
    have h3 : ∀ q ∈ rest, ∀ r ∈ acc ++ [(ks, vs)], q.1 ≠ GoVal.str r.1 := by
      intro q hq r hr
      rcases List.mem_append.mp hr with ha | ha
      · exact hdisj q (List.mem_cons_of_mem _ hq) r ha
      · simp only [List.mem_singleton] at ha
        subst ha
        intro he
        exact hnd.1 (he ▸ List.mem_map_of_mem Prod.fst hq)
    rw [ih (acc ++ [(ks, vs)]) h1 hnd.2 h3]
    simp [unStr]

lemma parseAux_append (l₁ l₂ : List Char) (acc : Nat) :
    parseDigitsAux (l₁ ++ l₂) acc =
      match parseDigitsAux l₁ acc with
      | some a => parseDigitsAux l₂ a
      | none => none := by
  induction l₁ generalizing acc with
  | nil => simp [parseDigitsAux]
  | cons c cs ih =>
    cases hc : chDigit c <;> simp [parseDigitsAux, hc, ih]

lemma chDigit_digitCh (r : Nat) (h : r < 10) : chDigit (digitCh r) = some r := by
  interval_cases r <;> decide

lemma digitCh_ne_dash (r : Nat) (h : r < 10) : digitCh r ≠ '-' := by
  interval_cases r <;> decide

lemma digitCh_ne_plus (r : Nat) (h : r < 10) : digitCh r ≠ '+' := by
  interval_cases r <;> decide

lemma mem_natDigitsRev (n : Nat) : ∀ c ∈ natDigitsRev n, ∃ r, r < 10 ∧ c = digitCh r := by
  induction n using Nat.strong_induction_on with
  | _ n ih =>
    match n with
    | 0 => intro c hc; simp [natDigitsRev] at hc
    | m + 1 =>
      intro c hc
      simp only [natDigitsRev] at hc
      rcases List.mem_cons.mp hc with h | h
      · exact ⟨(m + 1) % 10, Nat.mod_lt _ (by norm_num), h⟩
      · exact ih ((m + 1) / 10) (Nat.div_lt_self (Nat.succ_pos m) (by norm_num)) c h

lemma parseAux_digitsRev (n : Nat) : ∀ acc : Nat,
    parseDigitsAux (natDigitsRev n).reverse acc =
      some (acc * 10 ^ (natDigitsRev n).length + n) := by
  induction n using Nat.strong_induction_on with
  | _ n ih =>
    match n with
    | 0 => intro acc; simp [natDigitsRev, parseDigitsAux]
    | m + 1 =>
      intro acc
      have hq : (m + 1) / 10 < m + 1 := Nat.div_lt_self (Nat.succ_pos m) (by norm_num)
      simp only [natDigitsRev, List.reverse_cons, List.length_cons]
      rw [parseAux_append, ih ((m + 1) / 10) hq acc]
      have hr : (m + 1) % 10 < 10 := Nat.mod_lt _ (by norm_num)
      simp only [parseDigitsAux, chDigit_digitCh ((m + 1) % 10) hr]
      congr 1
      have hqr : 10 * ((m + 1) / 10) + (m + 1) % 10 = m + 1 := Nat.div_add_mod (m + 1) 10
      calc (acc * 10 ^ (natDigitsRev ((m + 1) / 10)).length + (m + 1) / 10) * 10 +
            (m + 1) % 10
          = acc * (10 ^ (natDigitsRev ((m + 1) / 10)).length * 10) +
            (10 * ((m + 1) / 10) + (m + 1) % 10) := by ring
        _ = acc * 10 ^ ((natDigitsRev ((m + 1) / 10)).length + 1) + (m + 1) := by
            rw [hqr, pow_succ]

lemma natDigitsRev_ne_nil (n : Nat) (h : n ≠ 0) : natDigitsRev n ≠ [] := by
  match n with
  | m + 1 => simp [natDigitsRev]

lemma parseDigits_formatNat (n : Nat) : parseDigits (formatNat n) = some n := by
  by_cases h : n = 0
  · subst h; decide
  · unfold formatNat
    rw [if_neg h]
    unfold parseDigits
    have hne : (natDigitsRev n).reverse.isEmpty = false := by
      cases hl : natDigitsRev n with
      | nil => exact absurd hl (natDigitsRev_ne_nil n h)
      | cons a l => simp [List.isEmpty_iff, hl]
    rw [hne]
    simp [parseAux_digitsRev n 0]

lemma formatNat_head_cases (n : Nat) :
    ∃ c rest, formatNat n = c :: rest ∧ c ≠ '-' ∧ c ≠ '+' := by
  by_cases h : n = 0
  · subst h; exact ⟨'0', [], rfl, by decide, by decide⟩
  · unfold formatNat
    rw [if_neg h]
    cases hl : (natDigitsRev n).reverse with
    | nil => exact absurd (List.reverse_eq_nil_iff.mp hl) (natDigitsRev_ne_nil n h)
    | cons c rest =>
      have hc : c ∈ natDigitsRev n :=
        List.mem_reverse.mp (hl ▸ List.mem_cons_self c rest)
      obtain ⟨r, hr, rfl⟩ := mem_natDigitsRev n c hc
      exact ⟨digitCh r, rest, rfl, digitCh_ne_dash r hr, digitCh_ne_plus r hr⟩

lemma parseInt64_formatInt (i : Int) (h1 : -(2 ^ 63) ≤ i) (h2 : i < 2 ^ 63) :
    parseInt64 (formatInt i) = .ok i := by
  have hpow : (2 : Int) ^ 63 = 9223372036854775808 := by norm_num
  rw [hpow] at h1 h2
  by_cases hneg : i < 0
  · unfold formatInt
    rw [if_pos hneg]
    simp only [parseInt64, if_true, parseDigits_formatNat, hpow]
    rw [if_neg (by omega)]
    congr 1
    omega
  · push_neg at hneg
    unfold formatInt
    rw [if_neg (not_lt.mpr hneg)]
    obtain ⟨c, rest, hf, hd, hp⟩ := formatNat_head_cases i.natAbs
    rw [hf]
    simp only [parseInt64]
    rw [if_neg hd, if_neg hp, ← hf]
    simp only [parseDigits_formatNat, hpow]
    rw [if_neg (by omega)]
    congr 1
    omega

lemma parseInt64_error_cases (v : GoStr) (e : Err) (h : parseInt64 v = .error e) :
    e = .parseBad ∨ e = .parseRange := by
  cases v with
  | nil =>
    simp only [parseInt64] at h
    exact Or.inl (Except.error.inj h).symm
  | cons c rest =>
    simp only [parseInt64] at h
    repeat' split at h
    all_goals first
      | exact Or.inl (Except.error.inj h).symm
      | exact Or.inr (Except.error.inj h).symm
      | exact absurd h (by simp)

lemma addUserID_getUserID (c : Config) (sd : StoreData) (st : ReqRes) (n : Int)
    (hs : c.store = some sd) (h1 : -(2 ^ 63) ≤ n) (h2 : n < 2 ^ 63) :
    ((AddUserID c n st).bind fun p => (GetUserID c p.2).map fun q => (p.1, q.1)) =
      some (none, .ok n) := by
  cases hreg : st.reg with
  | some s =>
    simp [AddUserID, AddValue, GetUserID, GetValue, GetSessionOp, storeGet, sessionSave,
      hs, hreg, mapGet_mapSet_self, parseInt64_formatInt n h1 h2]
  | none =>
    simp [AddUserID, AddValue, GetUserID, GetValue, GetSessionOp, storeGet, sessionSave,
      hs, hreg, mapGet_mapSet_self, parseInt64_formatInt n h1 h2]

lemma addValue_getUserID_err (c : Config) (sd : StoreData) (st : ReqRes) (v : GoStr)
    (e : Err) (hs : c.store = some sd) (he : parseInt64 v = .error e) :
    ((AddValue c keyUserID v st).bind fun p => (GetUserID c p.2).map fun q => (p.1, q.1)) =
      some (none, .error e) := by
  cases hreg : st.reg with
  | some s =>
    simp [AddValue, GetUserID, GetValue, GetSessionOp, storeGet, sessionSave,
      hs, hreg, mapGet_mapSet_self, he]
  | none =>
    simp [AddValue, GetUserID, GetValue, GetSessionOp, storeGet, sessionSave,
      hs, hreg, mapGet_mapSet_self, he]

/-! ### Claim theorems -/

/-- Claim C2, counterexample to the claim as stated: on a configuration
with a blank domain and max-age 0, validate fails with MaxAgeTooShort yet
the Domain field has been changed (blank-domain normalization runs before
the max-age check), so the configuration is not "otherwise unmodified". -/
theorem claimC2_counterexample :
    (validate {NewConfig with Domain := [], MaxAge := 0} [] []).2 = some Err.maxAgeTooShort ∧
    (validate {NewConfig with Domain := [], MaxAge := 0} [] []).1.Domain ≠
      ({NewConfig with Domain := [], MaxAge := 0} : Config).Domain := by
  decide

/-- Claim C2 (amended): validate never modifies max-age (in particular it
is unchanged whenever it is ≥ 1 second); for max-age < 1 second validate
fails with MaxAgeTooShort, and on this error path every field is left
unmodified except the blank domain/path normalization, which precedes the
max-age check. -/
theorem claimC2 (c : Config) (gA gE : GoStr) :
    (validate c gA gE).1.MaxAge = c.MaxAge ∧
    (c.MaxAge < oneSecond →
      (validate c gA gE).2 = some Err.maxAgeTooShort ∧
      (validate c gA gE).1.SameSite = c.SameSite ∧
      (validate c gA gE).1.AuthKey = c.AuthKey ∧
      (validate c gA gE).1.EncryptKey = c.EncryptKey ∧
      (validate c gA gE).1.CookieName = c.CookieName ∧
      (validate c gA gE).1.HTTPOnly = c.HTTPOnly ∧
      (validate c gA gE).1.Secure = c.Secure ∧
      (validate c gA gE).1.store = c.store ∧
      (validate c gA gE).1.Domain = (if goTrim c.Domain = [] then ['.'] else c.Domain) ∧
      (validate c gA gE).1.Path = (if goTrim c.Path = [] then ['/'] else c.Path)) := by
  refine ⟨validate_MaxAge c gA gE, fun hM => ?_⟩
  rw [validate_err, validate_SameSite, validate_AuthKey, validate_EncryptKey,
    validate_CookieName, validate_HTTPOnly, validate_Secure, validate_store,
    validate_Domain, validate_Path]
  simp [hM]

/-- Claim C2 witness: the amended statement evaluated on a concrete
configuration with max-age 0. -/
theorem claimC2_witness :
    (validate {NewConfig with MaxAge := 0} [] []).1.MaxAge =
      ({NewConfig with MaxAge := 0} : Config).MaxAge ∧
    ((validate {NewConfig with MaxAge := 0} [] []).2 = some Err.maxAgeTooShort ∧
      (validate {NewConfig with MaxAge := 0} [] []).1.SameSite =
        ({NewConfig with MaxAge := 0} : Config).SameSite ∧
      (validate {NewConfig with MaxAge := 0} [] []).1.AuthKey =
        ({NewConfig with MaxAge := 0} : Config).AuthKey ∧
      (validate {NewConfig with MaxAge := 0} [] []).1.EncryptKey =
        ({NewConfig with MaxAge := 0} : Config).EncryptKey ∧
      (validate {NewConfig with MaxAge := 0} [] []).1.CookieName =
        ({NewConfig with MaxAge := 0} : Config).CookieName ∧
      (validate {NewConfig with MaxAge := 0} [] []).1.HTTPOnly =
        ({NewConfig with MaxAge := 0} : Config).HTTPOnly ∧
      (validate {NewConfig with MaxAge := 0} [] []).1.Secure =
        ({NewConfig with MaxAge := 0} : Config).Secure ∧
      (validate {NewConfig with MaxAge := 0} [] []).1.store =
        ({NewConfig with MaxAge := 0} : Config).store ∧
      (validate {NewConfig with MaxAge := 0} [] []).1.Domain =
        (if goTrim ({NewConfig with MaxAge := 0} : Config).Domain = [] then ['.']
         else ({NewConfig with MaxAge := 0} : Config).Domain) ∧
      (validate {NewConfig with MaxAge := 0} [] []).1.Path =
        (if goTrim ({NewConfig with MaxAge := 0} : Config).Path = [] then ['/']
         else ({NewConfig with MaxAge := 0} : Config).Path)) :=
  ⟨(claimC2 {NewConfig with MaxAge := 0} [] []).1,
   (claimC2 {NewConfig with MaxAge := 0} [] []).2 (by decide)⟩

/-- Claim C4: once the max-age check has passed, validate enforces key
lengths: a non-empty auth key of byte length other than 64 yields
AuthKeyWrongSize; a length-64 auth key is kept unchanged; an empty auth
key is replaced by the generated random key of length 64; and (when the
auth key check passes, the checks being sequential) the same for the
encrypt key with length 32 and EncyptKeyWrongSize. -/
theorem claimC4 (c : Config) (gA gE : GoStr)
    (hM : ¬c.MaxAge < oneSecond) (hgA : goLen gA = 64) (hgE : goLen gE = 32) :
    (goLen c.AuthKey ≠ 0 → goLen c.AuthKey ≠ 64 →
      (validate c gA gE).2 = some Err.authKeyWrongSize) ∧
    (goLen c.AuthKey = 64 → (validate c gA gE).1.AuthKey = c.AuthKey) ∧
    (goLen c.AuthKey = 0 →
      (validate c gA gE).1.AuthKey = gA ∧ goLen (validate c gA gE).1.AuthKey = 64) ∧
    (goLen c.AuthKey = 0 ∨ goLen c.AuthKey = 64 →
      (goLen c.EncryptKey ≠ 0 → goLen c.EncryptKey ≠ 32 →
        (validate c gA gE).2 = some Err.encryptKeyWrongSize) ∧
      (goLen c.EncryptKey = 32 → (validate c gA gE).1.EncryptKey = c.EncryptKey) ∧
      (goLen c.EncryptKey = 0 →
        (validate c gA gE).1.EncryptKey = gE ∧
        goLen (validate c gA gE).1.EncryptKey = 32)) := by
  refine ⟨fun h0 h64 => ?_, fun h64 => ?_, fun h0 => ?_, fun hok => ?_⟩
  · rw [validate_err]; simp [hM, h0, h64]
  · rw [validate_AuthKey]; simp [hM, h64]
  · rw [validate_AuthKey]; simp [hM, h0, hgA]
  · refine ⟨fun h0 h32 => ?_, fun h32 => ?_, fun h0 => ?_⟩
    · rw [validate_err]; simp [hM, hok, h0, h32]
    · rw [validate_EncryptKey]; simp [hM, hok, h32]
    · rw [validate_EncryptKey]; simp [hM, hok, h0, hgE]

/-- Claim C4 witness: key-length enforcement evaluated on concrete
configurations (wrong-size auth key rejected; exact-size keys kept; empty
keys replaced by the generated 64/32-byte keys; wrong-size encrypt key
rejected). -/
theorem claimC4_witness :
    (validate {NewConfig with AuthKey := ['x']} aKey64 eKey32).2 =
      some Err.authKeyWrongSize ∧
    (validate {NewConfig with AuthKey := aKey64, EncryptKey := eKey32} aKey64 eKey32).1.AuthKey =
      ({NewConfig with AuthKey := aKey64, EncryptKey := eKey32} : Config).AuthKey ∧
    ((validate NewConfig aKey64 eKey32).1.AuthKey = aKey64 ∧
      goLen (validate NewConfig aKey64 eKey32).1.AuthKey = 64) ∧
    (validate {NewConfig with EncryptKey := ['y']} aKey64 eKey32).2 =
      some Err.encryptKeyWrongSize ∧
    ((validate NewConfig aKey64 eKey32).1.EncryptKey = eKey32 ∧
      goLen (validate NewConfig aKey64 eKey32).1.EncryptKey = 32) :=
  ⟨(claimC4 {NewConfig with AuthKey := ['x']} aKey64 eKey32 (by decide) (by decide)
      (by decide)).1 (by decide) (by decide),
   (claimC4 {NewConfig with AuthKey := aKey64, EncryptKey := eKey32} aKey64 eKey32
      (by decide) (by decide) (by decide)).2.1 (by decide),
   (claimC4 NewConfig aKey64 eKey32 (by decide) (by decide) (by decide)).2.2.1 (by decide),
   ((claimC4 {NewConfig with EncryptKey := ['y']} aKey64 eKey32 (by decide) (by decide)
      (by decide)).2.2.2 (Or.inl (by decide))).1 (by decide) (by decide),
   ((claimC4 NewConfig aKey64 eKey32 (by decide) (by decide) (by decide)).2.2.2
      (Or.inl (by decide))).2.2 (by decide)⟩

/-- Claim C6: a domain or path that is empty or all whitespace is replaced
by "." respectively "/"; an input with at least one non-whitespace
character passes through validate unchanged. -/
theorem claimC6 (c : Config) (gA gE : GoStr) :
    (c.Domain.all goIsSpace = true → (validate c gA gE).1.Domain = ['.']) ∧
    (c.Domain.all goIsSpace = false → (validate c gA gE).1.Domain = c.Domain) ∧
    (c.Path.all goIsSpace = true → (validate c gA gE).1.Path = ['/']) ∧
    (c.Path.all goIsSpace = false → (validate c gA gE).1.Path = c.Path) := by
  refine ⟨fun h => ?_, fun h => ?_, fun h => ?_, fun h => ?_⟩
  · rw [validate_Domain, if_pos ((goTrim_eq_nil_iff _).mpr h)]
  · rw [validate_Domain, if_neg fun hx => by
      rw [(goTrim_eq_nil_iff _).mp hx] at h; exact Bool.true_eq_false.mp h]
  · rw [validate_Path, if_pos ((goTrim_eq_nil_iff _).mpr h)]
  · rw [validate_Path, if_neg fun hx => by
      rw [(goTrim_eq_nil_iff _).mp hx] at h; exact Bool.true_eq_false.mp h]

/-- Claim C6 witness: a whitespace-only domain becomes "." and the
non-blank default path "/" passes through unchanged. -/
theorem claimC6_witness :
    (validate {NewConfig with Domain := [' ', '\t']} [] []).1.Domain = ['.'] ∧
    (validate NewConfig [] []).1.Path = NewConfig.Path :=
  ⟨(claimC6 {NewConfig with Domain := [' ', '\t']} [] []).1 (by decide),
   (claimC6 NewConfig [] []).2.2.2 (by decide)⟩

/-- Claim C8: validate is idempotent: if validate succeeded (with generated
keys of the required lengths), running it again on the result succeeds and
returns the configuration completely unchanged. -/
theorem claimC8 (c c' : Config) (gA gE gA2 gE2 : GoStr)
    (hgA : goLen gA = 64) (hgE : goLen gE = 32)
    (h : validate c gA gE = (c', none)) :
    validate c' gA2 gE2 = (c', none) :=
  validate_of_valid c' gA2 gE2 (valid_of_validate c c' gA gE hgA hgE h)

/-- Claim C8 witness: re-validating the concrete validated configuration
is a no-op. -/
theorem claimC8_witness :
    validate {NewConfig with AuthKey := aKey64, EncryptKey := eKey32} [] [] =
      ({NewConfig with AuthKey := aKey64, EncryptKey := eKey32}, none) :=
  claimC8 NewConfig {NewConfig with AuthKey := aKey64, EncryptKey := eKey32}
    aKey64 eKey32 [] [] (by decide) (by decide) (by decide)

/-- Claim C1: on an initialized configuration, GetSession never returns an
error; and on a fresh request whose named cookie is absent or fails
verification, it returns a new empty session with IsNew = true. -/
theorem claimC1 (c : Config) (sd : StoreData) (st : ReqRes) (hs : c.store = some sd) :
    (GetSessionOp c st).isSome = true ∧
    (∀ p, GetSessionOp c st = some p → ∃ s, p.1 = Except.ok s) ∧
    (st.reg = none → st.cookie = Cookie.absent ∨ st.cookie = Cookie.tampered →
      GetSessionOp c st =
        some (.ok ⟨[], true, sd.options⟩, {st with reg := some ⟨[], true, sd.options⟩})) := by
  refine ⟨?_, ?_, ?_⟩
  · cases hreg : st.reg <;> simp [GetSessionOp, storeGet, hs, hreg]
  · intro p hp
    cases hreg : st.reg with
    | some s =>
      simp [GetSessionOp, storeGet, hs, hreg] at hp
      exact ⟨s, by rw [← hp]⟩
    | none =>
      simp [GetSessionOp, storeGet, hs, hreg] at hp
      exact ⟨newSessionFromCookie sd st.cookie, by rw [← hp]⟩
  · intro h1 h2
    rcases h2 with h2 | h2 <;>
      simp [GetSessionOp, storeGet, hs, h1, h2, newSessionFromCookie]

/-- Claim C1 witness: a fresh request with no cookie, and one with a
tampered cookie, both yield the empty IsNew session without error. -/
theorem claimC1_witness :
    GetSessionOp cfgW stW =
      some (.ok ⟨[], true, sdW.options⟩, {stW with reg := some ⟨[], true, sdW.options⟩}) ∧
    GetSessionOp cfgW ⟨Cookie.tampered, none, none⟩ =
      some (.ok ⟨[], true, sdW.options⟩,
        {(⟨Cookie.tampered, none, none⟩ : ReqRes) with reg := some ⟨[], true, sdW.options⟩}) :=
  ⟨(claimC1 cfgW sdW stW rfl).2.2 rfl (Or.inl rfl),
   (claimC1 cfgW sdW ⟨Cookie.tampered, none, none⟩ rfl).2.2 rfl (Or.inr rfl)⟩

/-- Claim C3: on an initialized configuration, AddValue(k, v) followed by
GetValue(k) on the same request succeeds and returns v; and GetValue on a
key that is absent (or stored with a non-string value) returns
KeyNotFound. -/
theorem claimC3 (c : Config) (sd : StoreData) (k v : GoStr) (st : ReqRes)
    (s : Session) (st₁ : ReqRes) (hs : c.store = some sd) :
    (((AddValue c k v st).bind fun p => (GetValue c k p.2).map fun q => (p.1, q.1)) =
      some (none, .ok v)) ∧
    (GetSessionOp c st = some (.ok s, st₁) →
      (∀ w, mapGet s.values (GoVal.str k) ≠ some (GoVal.str w)) →
      GetValue c k st = some (.error .keyNotFound, st₁)) := by
  refine ⟨addValue_getValue c sd k v st hs, fun hg hnf => ?_⟩
  cases hm : mapGet s.values (GoVal.str k) with
  | none => simp [GetValue, hg, hm]
  | some g =>
    cases g with
    | str w => exact absurd hm (hnf w)
    | nonstr t => simp [GetValue, hg, hm]

/-- Claim C3 witness: the round trip and the KeyNotFound case evaluated on
the concrete initialized configuration and a fresh request. -/
theorem claimC3_witness :
    (((AddValue cfgW kKey vVal stW).bind
        fun p => (GetValue cfgW kKey p.2).map fun q => (p.1, q.1)) =
      some (none, .ok vVal)) ∧
    GetValue cfgW kKey stW =
      some (.error .keyNotFound, {stW with reg := some sessW}) :=
  ⟨(claimC3 cfgW sdW kKey vVal stW sessW {stW with reg := some sessW} rfl).1,
   (claimC3 cfgW sdW kKey vVal stW sessW {stW with reg := some sessW} rfl).2
     rfl (fun w h => by simp [sessW, mapGet] at h)⟩

/-- Claim C5: Destroy and Extend both factor through the same
get-session/set-options/save step; the only difference is that Destroy
overrides the derived options' max-age to -1 while Extend uses the derived
options unchanged. -/
theorem claimC5 (c : Config) (st : ReqRes) :
    Destroy c st = setOptsAndSave c {getOptions c with maxAge := -1} st ∧
    Extend c st = setOptsAndSave c (getOptions c) st :=
  ⟨rfl, rfl⟩

/-- Claim C7: if every entry of the session's map has a string key and a
string value (and, it being a Go map, keys are distinct), GetAllValues
returns exactly those entries as string pairs; in particular the failed
type-assertion (panic) branch is not taken. -/
theorem claimC7 (c : Config) (sd : StoreData) (st : ReqRes) (s : Session) (st₁ : ReqRes)
    (_hs : c.store = some sd)
    (hg : GetSessionOp c st = some (.ok s, st₁))
    (hstr : ∀ p ∈ s.values, ∃ ks vs, p = (GoVal.str ks, GoVal.str vs))
    (hnd : (s.values.map Prod.fst).Nodup) :
    GetAllValues c st =
      some (.ok (s.values.map fun p => (unStr p.1, unStr p.2)), st₁) := by
  have hc := collectStrings_ok s.values [] hstr hnd (by simp)
  simp only [List.nil_append] at hc
  simp [GetAllValues, hg, hc]

/-- Claim C7 witness: GetAllValues on a request whose cookie holds the
single string entry ("k", "v") returns exactly that entry. -/
theorem claimC7_witness :
    GetAllValues cfgW ⟨Cookie.sealed [(GoVal.str kKey, GoVal.str vVal)], none, none⟩ =
      some (.ok [(kKey, vVal)],
        {(⟨Cookie.sealed [(GoVal.str kKey, GoVal.str vVal)], none, none⟩ : ReqRes) with
          reg := some ⟨[(GoVal.str kKey, GoVal.str vVal)], false, optsW⟩}) :=
  claimC7 cfgW sdW ⟨Cookie.sealed [(GoVal.str kKey, GoVal.str vVal)], none, none⟩
    ⟨[(GoVal.str kKey, GoVal.str vVal)], false, optsW⟩
    _ rfl rfl
    (by intro p hp; simp only [List.mem_singleton] at hp
        exact ⟨kKey, vVal, hp⟩)
    (by simp)

/-- Claim C10: every session operation invoked on a configuration whose
store is nil (Init never succeeded) dereferences the nil store and panics
(modelled as `none`) instead of returning an error; and a failing Init
leaves the store field untouched, so nothing ever checks or repairs it. -/
theorem claimC10 (c : Config) (st : ReqRes) (k v : GoStr) (hs : c.store = none) :
    (GetSessionOp c st = none ∧ AddValue c k v st = none ∧ GetValue c k st = none ∧
      GetAllValues c st = none ∧ Extend c st = none ∧ Destroy c st = none) ∧
    (∀ (c0 : Config) (gA gE : GoStr) (c1 : Config) (e : Err),
      InitOp c0 gA gE = (c1, some e) → c1.store = c0.store) := by
  constructor
  · simp [GetSessionOp, AddValue, GetValue, GetAllValues, Extend, Destroy, hs]
  · intro c0 gA gE c1 e hI
    have hst := validate_store c0 gA gE
    rcases hv : validate c0 gA gE with ⟨c', err⟩
    rw [hv] at hst
    unfold InitOp at hI
    rw [hv] at hI
    cases err with
    | some e2 =>
      injection hI with hI1 hI2
      rw [← hI1]
      exact hst
    | none =>
      injection hI with hI1 hI2
      exact Option.noConfusion hI2

/-- Claim C10 witness: all six operations panic on the default
uninitialized configuration, and a failing Init (max-age 0) leaves the
store nil. -/
theorem claimC10_witness :
    (GetSessionOp NewConfig stW = none ∧ AddValue NewConfig [] [] stW = none ∧
      GetValue NewConfig [] stW = none ∧ GetAllValues NewConfig stW = none ∧
      Extend NewConfig stW = none ∧ Destroy NewConfig stW = none) ∧
    ({NewConfig with MaxAge := 0} : Config).store =
      ({NewConfig with MaxAge := 0} : Config).store :=
  ⟨(claimC10 NewConfig stW [] [] rfl).1,
   (claimC10 NewConfig stW [] [] rfl).2 {NewConfig with MaxAge := 0} [] []
     {NewConfig with MaxAge := 0} Err.maxAgeTooShort (by decide)⟩

/-- Claim C9: on an initialized configuration, AddUserID(n) followed by
GetUserID on the same request returns n (stored as a base-10 decimal
string) for every int64 n; and if the stored user-id string does not parse
as a base-10 int64, GetUserID fails with that numeric-parse error, which is
distinct from KeyNotFound. -/
theorem claimC9 (c : Config) (sd : StoreData) (st : ReqRes) (n : Int) (v : GoStr)
    (hs : c.store = some sd) (h1 : -(2 ^ 63) ≤ n) (h2 : n < 2 ^ 63) :
    (((AddUserID c n st).bind fun p => (GetUserID c p.2).map fun q => (p.1, q.1)) =
      some (none, .ok n)) ∧
    (∀ e, parseInt64 v = .error e →
      (((AddValue c keyUserID v st).bind fun p =>
          (GetUserID c p.2).map fun q => (p.1, q.1)) = some (none, .error e)) ∧
      e ≠ .keyNotFound) := by
  refine ⟨addUserID_getUserID c sd st n hs h1 h2, fun e he => ?_⟩
  refine ⟨addValue_getUserID_err c sd st v e hs he, ?_⟩
  rcases parseInt64_error_cases v e he with h | h <;> subst h <;> decide

/-- Claim C9 witness: storing 42 and reading it back yields 42; storing the
non-numeric string "abc" makes GetUserID fail with the syntax error, not
KeyNotFound. -/
theorem claimC9_witness :
    (((AddUserID cfgW 42 stW).bind fun p => (GetUserID cfgW p.2).map fun q => (p.1, q.1)) =
      some (none, .ok 42)) ∧
    (((AddValue cfgW keyUserID abcStr stW).bind fun p =>
        (GetUserID cfgW p.2).map fun q => (p.1, q.1)) =
      some (none, .error .parseBad)) ∧
    Err.parseBad ≠ Err.keyNotFound :=
  ⟨(claimC9 cfgW sdW stW 42 abcStr rfl (by decide) (by decide)).1,
   (claimC9 cfgW sdW stW 42 abcStr rfl (by decide) (by decide)).2 .parseBad rfl⟩

end SessionPkg
